import Mathlib

/-!
Shallow embedding of `src/shell/observable.py` (Supernova_2020): line-of-sight
synchrotron and Faraday-rotation observables.

Modelling conventions:
* numpy float arrays along the depth axis are lists of real numbers; a full
  gridded quantity is a function from an abstract sky-pixel index type to such
  a list (the depth axis is the source's `axis=2`);
* numpy `**` on the nonnegative base `Bperp2` and on the wavelength is
  `Real.rpow`; small integer exponents written `**2` in the source are `^ 2`;
* astropy units are carried as explicit unit tags exactly where the source
  manipulates them (`.value` / `.unit` / the `u.rad/u.m**2` factor); raw
  numbers are taken in the source's calibration units (microgauss, cm⁻³, pc);
* `scipy.ndimage.gaussian_filter` is an external library function and enters
  the embedding as an uninterpreted function parameter;
* `warnings.warn` is modelled by an explicit list of emitted warnings.
-/

namespace Supernova

/-- Ceiling measure step used for the termination of the angle-wrapping
while-loops: if `t > 0` then `⌈t - 1⌉.toNat < ⌈t⌉.toNat`. -/
lemma toNatCeilLt {t : ℝ} (ht : 0 < t) : (⌈t - 1⌉).toNat < (⌈t⌉).toNat := by
  have h1 : 0 < ⌈t⌉ := Int.ceil_pos.mpr ht
  have h2 : ⌈t - (1:ℝ)⌉ = ⌈t⌉ - 1 := Int.ceil_sub_one t
  omega

/-- Source lines 203-204 (`adjust_angles`): `while (psi > pi): psi -= 2*pi`. -/
noncomputable def wrapDown (psi : ℝ) : ℝ :=
  if h : Real.pi < psi then wrapDown (psi - 2*Real.pi) else psi
termination_by (⌈(psi - Real.pi) / (2*Real.pi)⌉).toNat
decreasing_by
  have hpi := Real.pi_pos
  have h2 : (0:ℝ) < 2*Real.pi := by linarith
  have hne : (2*Real.pi) ≠ 0 := ne_of_gt h2
  have harg : (psi - 2*Real.pi - Real.pi) / (2*Real.pi)
      = (psi - Real.pi) / (2*Real.pi) - 1 := by
    field_simp
    ring
  rw [harg]
  exact toNatCeilLt (div_pos (by linarith) h2)

/-- Source lines 205-206 (`adjust_angles`): `while (psi <= -pi): psi += 2*pi`. -/
noncomputable def wrapUp (psi : ℝ) : ℝ :=
  if h : psi ≤ -Real.pi then wrapUp (psi + 2*Real.pi) else psi
termination_by (⌈(Real.pi - psi) / (2*Real.pi)⌉).toNat
decreasing_by
  have hpi := Real.pi_pos
  have h2 : (0:ℝ) < 2*Real.pi := by linarith
  have hne : (2*Real.pi) ≠ 0 := ne_of_gt h2
  have harg : (Real.pi - (psi + 2*Real.pi)) / (2*Real.pi)
      = (Real.pi - psi) / (2*Real.pi) - 1 := by
    field_simp
    ring
  rw [harg]
  exact toNatCeilLt (div_pos (by linarith) h2)

/-- Source lines 187-207: `adjust_angles` restricts an angle to `-pi < psi <= pi`
by the two while-loops above (the `@vectorize` decorator applies it
element-wise; the element function is embedded). -/
noncomputable def adjust_angles (psi : ℝ) : ℝ := wrapUp (wrapDown psi)

lemma wrapDown_le (psi : ℝ) : wrapDown psi ≤ Real.pi := by
  induction psi using wrapDown.induct with
  | case1 x h ih =>
    rw [wrapDown, dif_pos h]
    exact ih
  | case2 x h =>
    rw [wrapDown, dif_neg h]
    exact le_of_not_lt h

lemma wrapDown_gt (psi : ℝ) (hx : -Real.pi < psi) : -Real.pi < wrapDown psi := by
  induction psi using wrapDown.induct with
  | case1 x h ih =>
    have hpi := Real.pi_pos
    rw [wrapDown, dif_pos h]
    exact ih (by linarith)
  | case2 x h =>
    rw [wrapDown, dif_neg h]
    exact hx

lemma wrapDown_congruent (psi : ℝ) : ∃ k : ℤ, wrapDown psi = psi - 2*Real.pi*k := by
  induction psi using wrapDown.induct with
  | case1 x h ih =>
    obtain ⟨k, hk⟩ := ih
    refine ⟨k + 1, ?_⟩
    rw [wrapDown, dif_pos h, hk]
    push_cast
    ring
  | case2 x h =>
    refine ⟨0, ?_⟩
    rw [wrapDown, dif_neg h]
    push_cast
    ring

lemma wrapUp_gt (psi : ℝ) : -Real.pi < wrapUp psi := by
  induction psi using wrapUp.induct with
  | case1 x h ih =>
    rw [wrapUp, dif_pos h]
    exact ih
  | case2 x h =>
    rw [wrapUp, dif_neg h]
    exact lt_of_not_le h

lemma wrapUp_le (psi : ℝ) (hx : psi ≤ Real.pi) : wrapUp psi ≤ Real.pi := by
  induction psi using wrapUp.induct with
  | case1 x h ih =>
    have hpi := Real.pi_pos
    rw [wrapUp, dif_pos h]
    exact ih (by linarith)
  | case2 x h =>
    rw [wrapUp, dif_neg h]
    exact hx

lemma wrapUp_congruent (psi : ℝ) : ∃ k : ℤ, wrapUp psi = psi + 2*Real.pi*k := by
  induction psi using wrapUp.induct with
  | case1 x h ih =>
    obtain ⟨k, hk⟩ := ih
    refine ⟨k + 1, ?_⟩
    rw [wrapUp, dif_pos h, hk]
    push_cast
    ring
  | case2 x h =>
    refine ⟨0, ?_⟩
    rw [wrapUp, dif_neg h]
    push_cast
    ring

lemma adjust_angles_mem (psi : ℝ) :
    adjust_angles psi ∈ Set.Ioc (-Real.pi) Real.pi :=
  ⟨wrapUp_gt _, wrapUp_le _ (wrapDown_le psi)⟩

lemma adjust_angles_congruent (psi : ℝ) :
    ∃ k : ℤ, adjust_angles psi = psi + 2*Real.pi*k := by
  obtain ⟨k1, h1⟩ := wrapDown_congruent psi
  obtain ⟨k2, h2⟩ := wrapUp_congruent (wrapDown psi)
  refine ⟨k2 - k1, ?_⟩
  rw [adjust_angles, h2, h1]
  push_cast
  ring

/-- Two reals in the fundamental window `(-π, π]` that differ by an integer
multiple of `2π` are equal. -/
lemma Ioc_unique_rep {a b : ℝ} (ha : a ∈ Set.Ioc (-Real.pi) Real.pi)
    (hb : b ∈ Set.Ioc (-Real.pi) Real.pi) (k : ℤ) (h : a = b + 2*Real.pi*k) :
    a = b := by
  have hpi := Real.pi_pos
  have hlow : -(2*Real.pi) < a - b := by
    obtain ⟨ha1, ha2⟩ := ha
    obtain ⟨hb1, hb2⟩ := hb
    linarith
  have hhigh : a - b < 2*Real.pi := by
    obtain ⟨ha1, ha2⟩ := ha
    obtain ⟨hb1, hb2⟩ := hb
    linarith
  have hk : a - b = 2*Real.pi*k := by rw [h]; ring
  rw [hk] at hlow hhigh
  have hk1 : (-1 : ℝ) < (k : ℝ) := by nlinarith
  have hk2 : (k : ℝ) < 1 := by nlinarith
  have hk0 : k = 0 := by
    have h1 : (-1 : ℤ) < k := by exact_mod_cast hk1
    have h2 : (k : ℤ) < 1 := by exact_mod_cast hk2
    omega
  rw [hk0] at h
  push_cast at h
  linarith

end Supernova

namespace Supernova

/-- The guard of the first `_adjust_diff` loop (source line 226):
`abs(diff - pi) < abs(diff)` holds exactly when `diff > pi/2`. -/
lemma absCondDown (x : ℝ) : |x - Real.pi| < |x| ↔ Real.pi/2 < x := by
  rw [abs_lt_iff_mul_self_lt]
  constructor
  · intro h
    nlinarith [Real.pi_pos]
  · intro h
    nlinarith [Real.pi_pos]

/-- The guard of the second `_adjust_diff` loop (source line 228):
`abs(diff + pi) < abs(diff)` holds exactly when `diff < -pi/2`. -/
lemma absCondUp (x : ℝ) : |x + Real.pi| < |x| ↔ x < -(Real.pi/2) := by
  rw [abs_lt_iff_mul_self_lt]
  constructor
  · intro h
    nlinarith [Real.pi_pos]
  · intro h
    nlinarith [Real.pi_pos]

/-- Source lines 226-227 (`_adjust_diff`):
`while (abs(diff-pi) < abs(diff)): diff -= pi`. -/
noncomputable def diffDown (d : ℝ) : ℝ :=
  if h : |d - Real.pi| < |d| then diffDown (d - Real.pi) else d
termination_by (⌈(d - Real.pi/2) / Real.pi⌉).toNat
decreasing_by
  have hpi := Real.pi_pos
  have hgt : Real.pi/2 < d := (absCondDown d).mp h
  have hne : Real.pi ≠ 0 := ne_of_gt hpi
  have harg : (d - Real.pi - Real.pi/2) / Real.pi = (d - Real.pi/2) / Real.pi - 1 := by
    field_simp
    ring
  rw [harg]
  exact toNatCeilLt (div_pos (by linarith) hpi)

/-- Source lines 228-229 (`_adjust_diff`):
`while (abs(diff+pi) < abs(diff)): diff += pi`. -/
noncomputable def diffUp (d : ℝ) : ℝ :=
  if h : |d + Real.pi| < |d| then diffUp (d + Real.pi) else d
termination_by (⌈(-d - Real.pi/2) / Real.pi⌉).toNat
decreasing_by
  have hpi := Real.pi_pos
  have hlt : d < -(Real.pi/2) := (absCondUp d).mp h
  have hne : Real.pi ≠ 0 := ne_of_gt hpi
  have harg : (-(d + Real.pi) - Real.pi/2) / Real.pi = (-d - Real.pi/2) / Real.pi - 1 := by
    field_simp
    ring
  rw [harg]
  exact toNatCeilLt (div_pos (by linarith) hpi)

/-- Source lines 209-230: `_adjust_diff` takes the smallest-magnitude
representative of an angle difference modulo the n-pi ambiguity
(the `@vectorize` decorator applies it element-wise). -/
noncomputable def adjust_diff (d : ℝ) : ℝ := diffUp (diffDown d)

lemma diffDown_le (d : ℝ) : diffDown d ≤ Real.pi/2 := by
  induction d using diffDown.induct with
  | case1 x h ih =>
    rw [diffDown, dif_pos h]
    exact ih
  | case2 x h =>
    rw [diffDown, dif_neg h]
    rw [absCondDown] at h
    exact le_of_not_lt h

lemma diffDown_ge (d : ℝ) (hd : -(Real.pi/2) ≤ d) : -(Real.pi/2) ≤ diffDown d := by
  induction d using diffDown.induct with
  | case1 x h ih =>
    have hgt : Real.pi/2 < x := (absCondDown x).mp h
    have hpi := Real.pi_pos
    rw [diffDown, dif_pos h]
    exact ih (by linarith)
  | case2 x h =>
    rw [diffDown, dif_neg h]
    exact hd

lemma diffDown_congruent (d : ℝ) : ∃ k : ℤ, diffDown d = d - Real.pi*k := by
  induction d using diffDown.induct with
  | case1 x h ih =>
    obtain ⟨k, hk⟩ := ih
    refine ⟨k + 1, ?_⟩
    rw [diffDown, dif_pos h, hk]
    push_cast
    ring
  | case2 x h =>
    refine ⟨0, ?_⟩
    rw [diffDown, dif_neg h]
    push_cast
    ring

lemma diffUp_ge (d : ℝ) : -(Real.pi/2) ≤ diffUp d := by
  induction d using diffUp.induct with
  | case1 x h ih =>
    rw [diffUp, dif_pos h]
    exact ih
  | case2 x h =>
    rw [diffUp, dif_neg h]
    rw [absCondUp] at h
    exact le_of_not_lt h

lemma diffUp_le (d : ℝ) (hd : d ≤ Real.pi/2) : diffUp d ≤ Real.pi/2 := by
  induction d using diffUp.induct with
  | case1 x h ih =>
    have hlt : x < -(Real.pi/2) := (absCondUp x).mp h
    have hpi := Real.pi_pos
    rw [diffUp, dif_pos h]
    exact ih (by linarith)
  | case2 x h =>
    rw [diffUp, dif_neg h]
    exact hd

lemma diffUp_congruent (d : ℝ) : ∃ k : ℤ, diffUp d = d + Real.pi*k := by
  induction d using diffUp.induct with
  | case1 x h ih =>
    obtain ⟨k, hk⟩ := ih
    refine ⟨k + 1, ?_⟩
    rw [diffUp, dif_pos h, hk]
    push_cast
    ring
  | case2 x h =>
    refine ⟨0, ?_⟩
    rw [diffUp, dif_neg h]
    push_cast
    ring

/-- Claim C1, counterexample: at the concrete input `-pi/2` the ambiguity
resolver `_adjust_diff` returns `-pi/2` itself, which does not lie in the
half-open interval `(-pi/2, pi/2]` asserted by the claim. -/
theorem c1_counterexample :
    adjust_diff (-(Real.pi/2)) = -(Real.pi/2) ∧
    adjust_diff (-(Real.pi/2)) ∉ Set.Ioc (-(Real.pi/2)) (Real.pi/2) := by
  have hpi := Real.pi_pos
  have hdown : diffDown (-(Real.pi/2)) = -(Real.pi/2) := by
    rw [diffDown, dif_neg]
    rw [absCondDown]
    push_neg
    linarith
  have hup : diffUp (-(Real.pi/2)) = -(Real.pi/2) := by
    rw [diffUp, dif_neg]
    rw [absCondUp]
    push_neg
    linarith
  have heq : adjust_diff (-(Real.pi/2)) = -(Real.pi/2) := by
    rw [adjust_diff, hdown, hup]
  refine ⟨heq, ?_⟩
  rw [heq]
  intro hmem
  exact lt_irrefl _ hmem.1

/-- Claim C1 (amended): for every real angle difference `d`, `_adjust_diff`
returns a value congruent to `d` modulo `pi` lying in the CLOSED interval
`[-pi/2, pi/2]`, reached by repeatedly shifting by `±pi` while doing so
strictly reduces the absolute value (the lower endpoint `-pi/2` is attained,
so the half-open interval `(-pi/2, pi/2]` of the original claim is wrong). -/
theorem c1_adjust_diff_amended (d : ℝ) :
    adjust_diff d ∈ Set.Icc (-(Real.pi/2)) (Real.pi/2) ∧
    ∃ k : ℤ, adjust_diff d = d - Real.pi*k := by
  constructor
  · exact ⟨diffUp_ge _, diffUp_le _ (diffDown_le d)⟩
  · obtain ⟨k1, h1⟩ := diffDown_congruent d
    obtain ⟨k2, h2⟩ := diffUp_congruent (diffDown d)
    refine ⟨k1 - k2, ?_⟩
    rw [adjust_diff, h2, h1]
    push_cast
    ring

/-- Claim C4: `adjust_angles` is invariant under shifts by integer multiples
of `2*pi`, and its value always lies in the half-open interval `(-pi, pi]`. -/
theorem c4_adjust_angles_spec (θ : ℝ) (n : ℤ) :
    adjust_angles (θ + 2*Real.pi*n) = adjust_angles θ ∧
    adjust_angles θ ∈ Set.Ioc (-Real.pi) Real.pi := by
  refine ⟨?_, adjust_angles_mem θ⟩
  obtain ⟨k1, h1⟩ := adjust_angles_congruent (θ + 2*Real.pi*n)
  obtain ⟨k2, h2⟩ := adjust_angles_congruent θ
  apply Ioc_unique_rep (adjust_angles_mem _) (adjust_angles_mem θ) (n + k1 - k2)
  rw [h1, h2]
  push_cast
  ring

end Supernova

namespace Supernova

/-- Embeds `scipy.integrate.trapz y x`: trapezoidal rule over the actual (possibly
non-uniform) sample spacing, `Σ (x_{k+1}-x_k)·(y_k+y_{k+1})/2`; on fewer than
two samples it is `0`.  Source line 9 aliases it as `integrate`. -/
noncomputable def trapz : List ℝ → List ℝ → ℝ
  | y1 :: y2 :: ys, x1 :: x2 :: xs =>
      (x2 - x1) * (y1 + y2) / 2 + trapz (y2 :: ys) (x2 :: xs)
  | _, _ => 0

/-- Running accumulator of `scipy.integrate.cumtrapz`: the list of prefix
trapezoid sums strictly after the starting sample, starting from `acc`. -/
noncomputable def cumtrapzFrom (acc : ℝ) : List ℝ → List ℝ → List ℝ
  | y1 :: y2 :: ys, x1 :: x2 :: xs =>
      (acc + (x2 - x1) * (y1 + y2) / 2) ::
        cumtrapzFrom (acc + (x2 - x1) * (y1 + y2) / 2) (y2 :: ys) (x2 :: xs)
  | _, _ => []

/-- Embeds `scipy.integrate.cumtrapz y x initial=0`: prefix trapezoidal integral
along the sample axis, whose value at the first sample is exactly `0`. -/
noncomputable def cumtrapz (ys xs : List ℝ) : List ℝ := 0 :: cumtrapzFrom 0 ys xs

/-- Source line 9: `integrate = trapz`. -/
noncomputable def integrate : List ℝ → List ℝ → ℝ := trapz

lemma trapz_nil (xs : List ℝ) : trapz [] xs = 0 := rfl

lemma trapz_single (y : ℝ) (xs : List ℝ) : trapz [y] xs = 0 := rfl

lemma trapz_xnil (y1 y2 : ℝ) (t : List ℝ) : trapz (y1 :: y2 :: t) [] = 0 := rfl

lemma trapz_xsingle (y1 y2 x : ℝ) (t : List ℝ) : trapz (y1 :: y2 :: t) [x] = 0 := rfl

lemma trapz_step (y1 y2 x1 x2 : ℝ) (t s : List ℝ) :
    trapz (y1 :: y2 :: t) (x1 :: x2 :: s)
      = (x2 - x1) * (y1 + y2) / 2 + trapz (y2 :: t) (x2 :: s) := rfl

lemma cumtrapzFrom_nil (acc : ℝ) (xs : List ℝ) : cumtrapzFrom acc [] xs = [] := rfl

lemma cumtrapzFrom_single (acc y : ℝ) (xs : List ℝ) : cumtrapzFrom acc [y] xs = [] := rfl

lemma cumtrapzFrom_xnil (acc y1 y2 : ℝ) (t : List ℝ) :
    cumtrapzFrom acc (y1 :: y2 :: t) [] = [] := rfl

lemma cumtrapzFrom_xsingle (acc y1 y2 x : ℝ) (t : List ℝ) :
    cumtrapzFrom acc (y1 :: y2 :: t) [x] = [] := rfl

lemma cumtrapzFrom_step (acc y1 y2 x1 x2 : ℝ) (t s : List ℝ) :
    cumtrapzFrom acc (y1 :: y2 :: t) (x1 :: x2 :: s)
      = (acc + (x2 - x1) * (y1 + y2) / 2) ::
          cumtrapzFrom (acc + (x2 - x1) * (y1 + y2) / 2) (y2 :: t) (x2 :: s) := rfl

lemma cumtrapzFrom_getLastD (ys : List ℝ) :
    ∀ (acc : ℝ) (xs : List ℝ),
      (cumtrapzFrom acc ys xs).getLastD acc = acc + trapz ys xs := by
  induction ys with
  | nil =>
    intro acc xs
    rw [cumtrapzFrom_nil, trapz_nil, List.getLastD_nil, add_zero]
  | cons y1 t ih =>
    intro acc xs
    rcases t with _ | ⟨y2, t2⟩
    · rw [cumtrapzFrom_single, trapz_single, List.getLastD_nil, add_zero]
    rcases xs with _ | ⟨x1, xs2⟩
    · rw [cumtrapzFrom_xnil, trapz_xnil, List.getLastD_nil, add_zero]
    rcases xs2 with _ | ⟨x2, s⟩
    · rw [cumtrapzFrom_xsingle, trapz_xsingle, List.getLastD_nil, add_zero]
    rw [cumtrapzFrom_step, trapz_step, List.getLastD_cons, ih]
    ring

/-- The last entry of the cumulative trapezoidal integral is the total
trapezoidal integral over the same range. -/
lemma cumtrapz_getLastD (ys xs : List ℝ) :
    (cumtrapz ys xs).getLastD 0 = trapz ys xs := by
  rw [cumtrapz, List.getLastD_cons, cumtrapzFrom_getLastD]
  ring

lemma length_cumtrapzFrom (ys : List ℝ) :
    ∀ (acc : ℝ) (xs : List ℝ),
      (cumtrapzFrom acc ys xs).length = min ys.length xs.length - 1 := by
  induction ys with
  | nil =>
    intro acc xs
    rw [cumtrapzFrom_nil]
    simp
  | cons y1 t ih =>
    intro acc xs
    rcases t with _ | ⟨y2, t2⟩
    · rw [cumtrapzFrom_single]
      rcases xs with _ | ⟨x1, xs2⟩ <;> simp
    rcases xs with _ | ⟨x1, xs2⟩
    · rw [cumtrapzFrom_xnil]
      simp
    rcases xs2 with _ | ⟨x2, s⟩
    · rw [cumtrapzFrom_xsingle]
      simp
    rw [cumtrapzFrom_step]
    simp only [List.length_cons, ih]
    omega

end Supernova

namespace Supernova

/-- Physical unit tags, carried exactly where the source manipulates astropy
units: the Stokes maps, and the `u.rad/u.m**2` rotation-measure unit. -/
inductive PhysUnit
  | stokes
  | radPerM2
deriving DecidableEq

/-- An astropy `Quantity`-like value: raw numeric content plus its unit tag
(the source accesses these as `.value` and `.unit`). -/
structure UQ (α : Type) where
  val : α
  unit : PhysUnit

/-- A legacy IMAGINE grid object, whose `z` attribute holds the depth axis. -/
structure Grid where
  z : List ℝ

/-- The `depth_grid` argument: either a bare depth-axis array (current calling
convention) or a full legacy grid object (detected by `hasattr(depth_grid,'z')`,
source lines 48-51 and 123-127). -/
inductive DepthInput
  | bare (d : List ℝ)
  | grid (g : Grid)

/-- The entry-boundary normalization of `depth_grid`: a legacy grid object is
replaced by its `z` attribute. -/
def normalizeDepth : DepthInput → List ℝ
  | .bare d => d
  | .grid g => g.z

/-- Warnings emitted through `warnings.warn`. -/
inductive WarningKind
  | deprecationWarning
deriving DecidableEq

/-- The warnings emitted by the `hasattr(depth_grid,'z')` compatibility shim:
one `DeprecationWarning` on the legacy path, none otherwise (source lines
48-51 / 123-127); no error is raised on either path. -/
def depthWarnings : DepthInput → List WarningKind
  | .bare _ => []
  | .grid _ => [.deprecationWarning]

/-- A numpy value along the depth axis: either a full per-sample array or a
broadcast scalar (the `RM = 0.0 * u.rad/u.m**2` branch of source line 80). -/
inductive NDVal
  | arr (l : List ℝ)
  | scalar (c : ℝ)

/-- Embeds numpy multiplication of a scalar with an array-or-scalar value
(`wavelength**2 * RM` in source line 83). -/
noncomputable def scaleND (c : ℝ) : NDVal → NDVal
  | .arr l => .arr (l.map (fun r => c * r))
  | .scalar s => .scalar (c * s)

/-- Embeds numpy broadcast addition of a depth-axis array with an array-or-scalar
value (`psi0 + wavelength**2*RM` in source line 83): a scalar is added to
every element, so the result keeps the left operand's shape. -/
noncomputable def addND (l : List ℝ) : NDVal → List ℝ
  | .arr m => List.zipWith (fun a r => a + r) l m
  | .scalar s => l.map (fun a => a + s)

/-- The Faraday calibration constant of source lines 75/131: `0.812` in
`rad·m⁻²` per (microgauss · cm⁻³ · pc). -/
noncomputable def k0 : ℝ := 0.812

/-- Source line 53, per voxel: `Bperp2 = Bx**2 + By**2`. -/
noncomputable def bperp2Elem (x y : ℝ) : ℝ := x^2 + y^2

/-- Source line 53 on gridded fields. -/
noncomputable def Bperp2 {P : Type} (Bx By : P → List ℝ) : P → List ℝ :=
  fun p => List.zipWith bperp2Elem (Bx p) (By p)

/-- Source line 55, per voxel: `ncr * Bperp2**((gamma+1)/4) *
wavelength**((gamma-1)/2)`; real powers are `Real.rpow`. -/
noncomputable def emissivityElem (gamma wavelength n b2 : ℝ) : ℝ :=
  n * b2 ^ ((gamma+1)/4) * wavelength ^ ((gamma-1)/2)

/-- Source line 55 on gridded fields: the synchrotron emissivity. -/
noncomputable def emissivity {P : Type} (gamma wavelength : ℝ)
    (ncr bp2 : P → List ℝ) : P → List ℝ :=
  fun p => List.zipWith (emissivityElem gamma wavelength) (ncr p) (bp2 p)

/-- Source line 61, per voxel: `psi0 = arctan(By/Bx) + pi/2` (real division;
the `Bx = 0` artifact cell is overwritten by the mask below). -/
noncomputable def psi0Raw (x y : ℝ) : ℝ := Real.arctan (y / x) + Real.pi / 2

/-- Source lines 65-66, per voxel: where `(By == 0) * (Bx == 0)`, force 0. -/
noncomputable def psi0Masked (x y : ℝ) : ℝ :=
  if y = 0 ∧ x = 0 then 0 else psi0Raw x y

/-- Source line 69, per voxel: `psi0[psi0 > pi] -= 2*pi`. -/
noncomputable def wrapStep1 (r : ℝ) : ℝ :=
  if r > Real.pi then r - 2*Real.pi else r

/-- Source line 70, per voxel: `psi0[psi0 < -pi] += 2*pi` (applied after
`wrapStep1`). -/
noncomputable def wrapStep2 (r : ℝ) : ℝ :=
  if r < -Real.pi then r + 2*Real.pi else r

/-- Source lines 61-70 combined, per voxel: masked and wrapped intrinsic
polarization angle. -/
noncomputable def psi0At (x y : ℝ) : ℝ :=
  wrapStep2 (wrapStep1 (psi0Masked x y))

/-- Source lines 61-70 on gridded fields: the intrinsic polarization angle. -/
noncomputable def psi0 {P : Type} (Bx By : P → List ℝ) : P → List ℝ :=
  fun p => List.zipWith psi0At (Bx p) (By p)

/-- Source lines 74-77: the cumulative Faraday-rotation array
`(0.812 rad/m²) * cumtrapz(Bz·ne, depth, initial=0)` computed inside
`compute_stokes_parameters` when the wavelength is nonzero. -/
noncomputable def cumFD {P : Type} (Bz ne : P → List ℝ) (depth : List ℝ) :
    P → List ℝ :=
  fun p =>
    (cumtrapz (List.zipWith (fun b n => b * n) (Bz p) (ne p)) depth).map
      (fun r => k0 * r)

/-- Source lines 72-80: the cumulative Faraday rotation, skipped for
`wavelength == 0` where a broadcast scalar `0.0 * u.rad/u.m**2` is
substituted. -/
noncomputable def faradayRM {P : Type} (wavelength : ℝ) (Bz ne : P → List ℝ)
    (depth : List ℝ) : UQ (P → NDVal) :=
  if wavelength ≠ 0 then
    ⟨fun p => .arr (cumFD Bz ne depth p), PhysUnit.radPerM2⟩
  else
    ⟨fun _ => .scalar 0, PhysUnit.radPerM2⟩

/-- Source line 83: the rotated polarization angle grid
`psi = psi0 + wavelength**2 * RM`. -/
noncomputable def psiField {P : Type} (wavelength : ℝ) (Bx By Bz ne : P → List ℝ)
    (depth : List ℝ) : P → List ℝ :=
  fun p =>
    addND (psi0 Bx By p)
      (scaleND (wavelength^2) ((faradayRM wavelength Bz ne depth).val p))

/-- Source lines 92-94 / 133-134: optional beam convolution.  With
`beam_kernel_sd = None` the map passes through untouched; otherwise the
external `gaussian_filter` is applied to the raw `.value` and the original
`.unit` is re-attached. -/
noncomputable def smooth {P : Type} (gaussian_filter : ℝ → (P → ℝ) → (P → ℝ))
    (beam_kernel_sd : Option ℝ) (m : UQ (P → ℝ)) : UQ (P → ℝ) :=
  match beam_kernel_sd with
  | none => m
  | some sd => ⟨gaussian_filter sd m.val, m.unit⟩

/-- Source lines 11-96: `compute_stokes_parameters`.  Returns the triple in
the source's order of line 96: `(I, U, Q)`. -/
noncomputable def compute_stokes_parameters {P : Type}
    (gaussian_filter : ℝ → (P → ℝ) → (P → ℝ))
    (depth_grid : DepthInput) (wavelength : ℝ)
    (Bx By Bz ne ncr : P → List ℝ) (gamma : ℝ)
    (beam_kernel_sd : Option ℝ) :
    UQ (P → ℝ) × UQ (P → ℝ) × UQ (P → ℝ) :=
  let depth := normalizeDepth depth_grid
  let em := emissivity gamma wavelength ncr (Bperp2 Bx By)
  let Iv : UQ (P → ℝ) := ⟨fun p => integrate (em p) depth, PhysUnit.stokes⟩
  let ps := psiField wavelength Bx By Bz ne depth
  let p0 := (gamma + 1) / (gamma + 7/3)
  let Uv : UQ (P → ℝ) :=
    ⟨fun p =>
      p0 * integrate (List.zipWith (fun e a => e * Real.sin (2*a)) (em p) (ps p)) depth,
     PhysUnit.stokes⟩
  let Qv : UQ (P → ℝ) :=
    ⟨fun p =>
      p0 * integrate (List.zipWith (fun e a => e * Real.cos (2*a)) (em p) (ps p)) depth,
     PhysUnit.stokes⟩
  (smooth gaussian_filter beam_kernel_sd Iv,
   smooth gaussian_filter beam_kernel_sd Uv,
   smooth gaussian_filter beam_kernel_sd Qv)

/-- Source lines 98-136: `compute_fd`, the total (non-cumulative) Faraday
depth `(0.812 rad/m²) * trapz(Bz·ne, depth)`, with the same legacy-input shim
and optional beam convolution. -/
noncomputable def compute_fd {P : Type}
    (gaussian_filter : ℝ → (P → ℝ) → (P → ℝ))
    (depth_grid : DepthInput) (Bz ne : P → List ℝ)
    (beam_kernel_sd : Option ℝ) : UQ (P → ℝ) :=
  let depth := normalizeDepth depth_grid
  let RM : UQ (P → ℝ) :=
    ⟨fun p => k0 * trapz (List.zipWith (fun b n => b * n) (Bz p) (ne p)) depth,
     PhysUnit.radPerM2⟩
  smooth gaussian_filter beam_kernel_sd RM

end Supernova

namespace Supernova

lemma getLastD_map_aux (f : ℝ → ℝ) (t : List ℝ) :
    ∀ a : ℝ, (t.map f).getLastD (f a) = f (t.getLastD a) := by
  induction t with
  | nil => intro a; simp
  | cons b t2 ih =>
    intro a
    rw [List.map_cons, List.getLastD_cons, List.getLastD_cons, ih]

lemma getLastD_map_cons (f : ℝ → ℝ) (a : ℝ) (t : List ℝ) (d e : ℝ) :
    ((a :: t).map f).getLastD d = f ((a :: t).getLastD e) := by
  rw [List.map_cons, List.getLastD_cons, List.getLastD_cons, getLastD_map_aux]

/-- Claim C3: for the same `Bz`, `ne` and depth axis, the last sample of the
cumulative Faraday integral computed inside `compute_stokes_parameters`
(`cumFD`, source lines 74-77) equals the total integral computed by
`compute_fd` (source lines 129-132), and its value at the first depth sample
is exactly 0. -/
theorem c3_cumulative_total_consistency {P : Type}
    (gaussian_filter : ℝ → (P → ℝ) → (P → ℝ))
    (Bz ne : P → List ℝ) (depth : List ℝ) (p : P) :
    (cumFD Bz ne depth p).getLastD 0
        = (compute_fd gaussian_filter (DepthInput.bare depth) Bz ne none).val p
      ∧ (cumFD Bz ne depth p).headD 0 = 0 := by
  constructor
  · rw [cumFD]
    rw [cumtrapz]
    rw [getLastD_map_cons (fun r => k0 * r) 0 _ 0 0]
    rw [show (0 : ℝ) :: cumtrapzFrom 0 (List.zipWith (fun b n => b * n) (Bz p) (ne p)) depth
          = cumtrapz (List.zipWith (fun b n => b * n) (Bz p) (ne p)) depth from rfl]
    rw [cumtrapz_getLastD]
    rfl
  · rw [cumFD, cumtrapz]
    simp

/-- Claim C6: for `wavelength = 0` the cumulative Faraday-rotation computation
is skipped and replaced by an exactly zero broadcast scalar carrying the
rotation-measure unit, so that the rotated angle `psi` equals `psi0`
everywhere. -/
theorem c6_zero_wavelength {P : Type} (Bx By Bz ne : P → List ℝ)
    (depth : List ℝ) :
    faradayRM (0:ℝ) Bz ne depth
        = ⟨fun _ => NDVal.scalar 0, PhysUnit.radPerM2⟩
      ∧ psiField (0:ℝ) Bx By Bz ne depth = psi0 Bx By := by
  have hRM : faradayRM (0:ℝ) Bz ne depth
      = ⟨fun _ => NDVal.scalar 0, PhysUnit.radPerM2⟩ := by
    rw [faradayRM, if_neg (show ¬((0:ℝ) ≠ 0) by simp)]
  refine ⟨hRM, ?_⟩
  funext p
  rw [psiField, hRM]
  simp [scaleND, addND]

/-- Claim C9: supplying a legacy grid object (with a depth-axis attribute `z`)
to `compute_stokes_parameters` or `compute_fd` emits a deprecation warning,
not an error, and produces the same result as supplying the bare depth
array. -/
theorem c9_legacy_grid_shim {P : Type}
    (gaussian_filter : ℝ → (P → ℝ) → (P → ℝ)) (g : Grid) (wavelength : ℝ)
    (Bx By Bz ne ncr : P → List ℝ) (gamma : ℝ) (beam_kernel_sd : Option ℝ) :
    compute_stokes_parameters gaussian_filter (DepthInput.grid g) wavelength
        Bx By Bz ne ncr gamma beam_kernel_sd
      = compute_stokes_parameters gaussian_filter (DepthInput.bare g.z) wavelength
        Bx By Bz ne ncr gamma beam_kernel_sd
    ∧ compute_fd gaussian_filter (DepthInput.grid g) Bz ne beam_kernel_sd
      = compute_fd gaussian_filter (DepthInput.bare g.z) Bz ne beam_kernel_sd
    ∧ depthWarnings (DepthInput.grid g) = [WarningKind.deprecationWarning]
    ∧ depthWarnings (DepthInput.bare g.z) = [] :=
  ⟨rfl, rfl, rfl, rfl⟩

/-- Claim C10: with `beam_kernel_sd = None` the convolution stage is a no-op
pass-through (the outputs do not depend on the kernel function at all); with a
supplied standard deviation, the Gaussian filter is applied to the raw numeric
values only and the original unit of every map is re-attached unchanged. -/
theorem c10_beam_convolution {P : Type}
    (gaussian_filter gf2 : ℝ → (P → ℝ) → (P → ℝ))
    (depth_grid : DepthInput) (wavelength : ℝ)
    (Bx By Bz ne ncr : P → List ℝ) (gamma : ℝ) (sd : ℝ) :
    (∀ m : UQ (P → ℝ), smooth gaussian_filter none m = m)
    ∧ compute_stokes_parameters gaussian_filter depth_grid wavelength
        Bx By Bz ne ncr gamma none
      = compute_stokes_parameters gf2 depth_grid wavelength
        Bx By Bz ne ncr gamma none
    ∧ compute_fd gaussian_filter depth_grid Bz ne none
      = compute_fd gf2 depth_grid Bz ne none
    ∧ (compute_stokes_parameters gaussian_filter depth_grid wavelength
        Bx By Bz ne ncr gamma (some sd)).1.val
      = gaussian_filter sd (compute_stokes_parameters gaussian_filter depth_grid
          wavelength Bx By Bz ne ncr gamma none).1.val
    ∧ (compute_stokes_parameters gaussian_filter depth_grid wavelength
        Bx By Bz ne ncr gamma (some sd)).1.unit
      = (compute_stokes_parameters gaussian_filter depth_grid wavelength
          Bx By Bz ne ncr gamma none).1.unit
    ∧ (compute_stokes_parameters gaussian_filter depth_grid wavelength
        Bx By Bz ne ncr gamma (some sd)).2.1.val
      = gaussian_filter sd (compute_stokes_parameters gaussian_filter depth_grid
          wavelength Bx By Bz ne ncr gamma none).2.1.val
    ∧ (compute_stokes_parameters gaussian_filter depth_grid wavelength
        Bx By Bz ne ncr gamma (some sd)).2.1.unit
      = (compute_stokes_parameters gaussian_filter depth_grid wavelength
          Bx By Bz ne ncr gamma none).2.1.unit
    ∧ (compute_stokes_parameters gaussian_filter depth_grid wavelength
        Bx By Bz ne ncr gamma (some sd)).2.2.val
      = gaussian_filter sd (compute_stokes_parameters gaussian_filter depth_grid
          wavelength Bx By Bz ne ncr gamma none).2.2.val
    ∧ (compute_stokes_parameters gaussian_filter depth_grid wavelength
        Bx By Bz ne ncr gamma (some sd)).2.2.unit
      = (compute_stokes_parameters gaussian_filter depth_grid wavelength
          Bx By Bz ne ncr gamma none).2.2.unit
    ∧ (compute_fd gaussian_filter depth_grid Bz ne (some sd)).val
      = gaussian_filter sd (compute_fd gaussian_filter depth_grid Bz ne none).val
    ∧ (compute_fd gaussian_filter depth_grid Bz ne (some sd)).unit
      = (compute_fd gaussian_filter depth_grid Bz ne none).unit :=
  ⟨fun _ => rfl, rfl, rfl, rfl, rfl, rfl, rfl, rfl, rfl, rfl, rfl⟩

/-- Claim C5, counterexample: at `gamma = -1` the exponent `(gamma+1)/4` is
zero, and at a voxel with `Bx = By = 0` the emissivity evaluates to
`ncr · 0^0 · wavelength^(-1) = 1 ≠ 0` (with `ncr = 1`, `wavelength = 1`),
refuting "emissivity is 0 regardless of the sign of the exponent". -/
theorem c5_counterexample :
    emissivity (-1) 1 (fun _ : Unit => [(1:ℝ)])
        (Bperp2 (fun _ => [0]) (fun _ => [0])) ()
      = [1]
    ∧ (1:ℝ) ≠ 0 := by
  constructor
  · show List.zipWith (emissivityElem (-1) 1) [(1:ℝ)]
        (List.zipWith bperp2Elem [(0:ℝ)] [(0:ℝ)]) = [1]
    rw [show List.zipWith bperp2Elem [(0:ℝ)] [(0:ℝ)] = [bperp2Elem 0 0] from rfl]
    rw [show List.zipWith (emissivityElem (-1) 1) [(1:ℝ)] [bperp2Elem 0 0]
          = [emissivityElem (-1) 1 1 (bperp2Elem 0 0)] from rfl]
    have hb : bperp2Elem 0 0 = 0 := by
      rw [bperp2Elem]
      norm_num
    rw [hb, emissivityElem]
    rw [show ((-1:ℝ)+1)/4 = 0 by norm_num]
    rw [Real.rpow_zero, Real.one_rpow]
    norm_num
  · norm_num

/-- Claim C5 (amended): at every voxel where `Bx = 0` and `By = 0` exactly,
the emissivity of `compute_stokes_parameters` is 0 whenever the exponent
`(gamma+1)/4` is positive (in particular for every `gamma > -1`; for
`gamma = -1` the exponent is 0 and `0^0 = 1` makes the emissivity nonzero,
so "regardless of the sign of the exponent" is false).  The embedding is a
total function, so no exception is raised at `0^fractional-exponent`. -/
theorem c5_amended (gamma wavelength x y n : ℝ) (hx : x = 0) (hy : y = 0)
    (he : 0 < (gamma+1)/4) :
    emissivityElem gamma wavelength n (bperp2Elem x y) = 0 := by
  subst hx
  subst hy
  have hb : bperp2Elem 0 0 = 0 := by
    rw [bperp2Elem]
    norm_num
  rw [hb, emissivityElem, Real.zero_rpow (ne_of_gt he), mul_zero, zero_mul]

/-- Witness for `c5_amended` at `gamma = 3`, `wavelength = 1`, `ncr = 5`. -/
theorem c5_witness :
    ((0:ℝ) = 0 ∧ (0:ℝ) = 0 ∧ 0 < ((3:ℝ)+1)/4)
    ∧ emissivityElem 3 1 5 (bperp2Elem 0 0) = 0 :=
  ⟨⟨rfl, rfl, by norm_num⟩, c5_amended 3 1 0 0 5 rfl rfl (by norm_num)⟩

/-- Claim C7: at every voxel where `Bx = 0` and `By = 0` exactly, the
intrinsic polarization angle `psi0` is exactly 0, and every element of the
`psi0` field lies in `(-pi, pi]` after the wrapping of source lines 69-70. -/
theorem c7_psi0_degenerate_and_range (x y : ℝ) (hx : x = 0) (hy : y = 0) :
    psi0At x y = 0
    ∧ ∀ a b : ℝ, psi0At a b ∈ Set.Ioc (-Real.pi) Real.pi := by
  have hpi := Real.pi_pos
  have hzero : psi0At 0 0 = 0 := by
    have hm : psi0Masked 0 0 = 0 := by rw [psi0Masked, if_pos ⟨rfl, rfl⟩]
    rw [psi0At, hm, wrapStep1, if_neg (show ¬((0:ℝ) > Real.pi) by push_neg; linarith)]
    rw [wrapStep2, if_neg (show ¬((0:ℝ) < -Real.pi) by push_neg; linarith)]
  constructor
  · subst hx
    subst hy
    exact hzero
  · intro a b
    by_cases hmask : b = 0 ∧ a = 0
    · obtain ⟨hb0, ha0⟩ := hmask
      subst hb0
      subst ha0
      rw [hzero]
      exact ⟨by linarith, by linarith⟩
    · have h1 : 0 < psi0Raw a b := by
        rw [psi0Raw]
        have := Real.neg_pi_div_two_lt_arctan (b / a)
        linarith
      have h2 : psi0Raw a b < Real.pi := by
        rw [psi0Raw]
        have := Real.arctan_lt_pi_div_two (b / a)
        linarith
      rw [psi0At, psi0Masked, if_neg hmask]
      rw [wrapStep1, if_neg (show ¬(psi0Raw a b > Real.pi) by push_neg; linarith)]
      rw [wrapStep2, if_neg (show ¬(psi0Raw a b < -Real.pi) by push_neg; linarith)]
      exact ⟨by linarith, by linarith⟩

/-- Witness for `c7_psi0_degenerate_and_range` at the degenerate voxel
`Bx = By = 0`. -/
theorem c7_witness :
    ((0:ℝ) = 0 ∧ (0:ℝ) = 0)
    ∧ (psi0At 0 0 = 0
       ∧ ∀ a b : ℝ, psi0At a b ∈ Set.Ioc (-Real.pi) Real.pi) :=
  ⟨⟨rfl, rfl⟩, c7_psi0_degenerate_and_range 0 0 rfl rfl⟩

end Supernova

namespace Supernova

lemma zipWithExt {α β γ : Type} (f g : α → β → γ) (h : ∀ a b, f a b = g a b) :
    ∀ (l1 : List α) (l2 : List β), List.zipWith f l1 l2 = List.zipWith g l1 l2 := by
  intro l1
  induction l1 with
  | nil => intro l2; rfl
  | cons a t ih =>
    intro l2
    cases l2 with
    | nil => rfl
    | cons b s => rw [List.zipWith_cons_cons, List.zipWith_cons_cons, h, ih]

lemma zipWithFst {α β : Type} :
    ∀ (l1 : List α) (l2 : List β), l1.length ≤ l2.length →
      List.zipWith (fun a _ => a) l1 l2 = l1 := by
  intro l1
  induction l1 with
  | nil => intro l2 h2; rfl
  | cons a t ih =>
    intro l2 h2
    cases l2 with
    | nil => simp at h2
    | cons b s =>
      rw [List.zipWith_cons_cons, ih s]
      simp only [List.length_cons] at h2
      omega

lemma psiField_zero {P : Type} (Bx By Bz ne : P → List ℝ) (depth : List ℝ) :
    psiField (0:ℝ) Bx By Bz ne depth = psi0 Bx By := by
  funext p
  have hRM : (faradayRM (0:ℝ) Bz ne depth).val p = NDVal.scalar 0 := by
    rw [faradayRM, if_neg (show ¬((0:ℝ) ≠ 0) by simp)]
  show addND (psi0 Bx By p)
      (scaleND ((0:ℝ)^2) ((faradayRM (0:ℝ) Bz ne depth).val p)) = psi0 Bx By p
  rw [hRM]
  show (psi0 Bx By p).map (fun a => a + (0:ℝ)^2 * 0) = psi0 Bx By p
  simp

/-- Follows the spec's words (§4.4): the rotated angle at each depth sample is
`psi(z) = psi0(z) + λ² · RM_cumulative(z)`, with `RM_cumulative` the prefix
trapezoidal Faraday integral scaled by the calibration constant. -/
noncomputable def spec_psi {P : Type} (wavelength : ℝ) (Bx By Bz ne : P → List ℝ)
    (depth : List ℝ) : P → List ℝ :=
  fun p =>
    List.zipWith (fun a r => a + wavelength^2 * r) (psi0 Bx By p)
      ((cumtrapz (List.zipWith (fun b n => b * n) (Bz p) (ne p)) depth).map
        (fun r => k0 * r))

/-- Follows the spec's words (§4.4): `I = ∫ emissivity dz`, trapezoidal on the
actual depth sample spacing. -/
noncomputable def spec_I {P : Type} (gamma wavelength : ℝ) (Bx By ncr : P → List ℝ)
    (depth : List ℝ) : P → ℝ :=
  fun p => trapz (emissivity gamma wavelength ncr (Bperp2 Bx By) p) depth

/-- Follows the spec's words (§4.4): `Q = p0 · ∫ emissivity·cos(2·psi) dz`
with `p0 = (γ+1)/(γ+7/3)`, same trapezoidal rule. -/
noncomputable def spec_Q {P : Type} (gamma wavelength : ℝ)
    (Bx By Bz ne ncr : P → List ℝ) (depth : List ℝ) : P → ℝ :=
  fun p =>
    ((gamma+1)/(gamma+7/3)) *
      trapz (List.zipWith (fun e a => e * Real.cos (2*a))
        (emissivity gamma wavelength ncr (Bperp2 Bx By) p)
        (spec_psi wavelength Bx By Bz ne depth p)) depth

/-- Follows the spec's words (§4.4): `U = p0 · ∫ emissivity·sin(2·psi) dz`
with `p0 = (γ+1)/(γ+7/3)`, same trapezoidal rule. -/
noncomputable def spec_U {P : Type} (gamma wavelength : ℝ)
    (Bx By Bz ne ncr : P → List ℝ) (depth : List ℝ) : P → ℝ :=
  fun p =>
    ((gamma+1)/(gamma+7/3)) *
      trapz (List.zipWith (fun e a => e * Real.sin (2*a))
        (emissivity gamma wavelength ncr (Bperp2 Bx By) p)
        (spec_psi wavelength Bx By Bz ne depth p)) depth

/-- The rotated-angle grid computed by the code (with its `wavelength == 0`
skip branch) agrees with the spec's always-computed formula, provided the
gridded fields share the depth axis length. -/
lemma psiField_eq_spec {P : Type} (wavelength : ℝ) (Bx By Bz ne : P → List ℝ)
    (depth : List ℝ)
    (hBx : ∀ p, (Bx p).length = depth.length)
    (hBy : ∀ p, (By p).length = depth.length)
    (hBz : ∀ p, (Bz p).length = depth.length)
    (hne : ∀ p, (ne p).length = depth.length) :
    psiField wavelength Bx By Bz ne depth = spec_psi wavelength Bx By Bz ne depth := by
  funext p
  by_cases hwl : wavelength = 0
  · subst hwl
    rw [psiField_zero]
    have hlen : (psi0 Bx By p).length ≤
        ((cumtrapz (List.zipWith (fun b n => b * n) (Bz p) (ne p)) depth).map
          (fun r => k0 * r)).length := by
      simp only [psi0, List.length_zipWith, List.length_map, cumtrapz,
        List.length_cons, length_cumtrapzFrom, hBx p, hBy p, hBz p, hne p, min_self]
      omega
    show psi0 Bx By p
        = List.zipWith (fun a r => a + (0:ℝ)^2 * r) (psi0 Bx By p)
          ((cumtrapz (List.zipWith (fun b n => b * n) (Bz p) (ne p)) depth).map
            (fun r => k0 * r))
    rw [zipWithExt (fun a r => a + (0:ℝ)^2 * r) (fun a (r : ℝ) => a)
        (by intro a r; norm_num)]
    rw [zipWithFst _ _ hlen]
  · have harr : (faradayRM wavelength Bz ne depth).val p
        = NDVal.arr (cumFD Bz ne depth p) := by
      rw [faradayRM, if_pos hwl]
    show addND (psi0 Bx By p)
        (scaleND (wavelength^2) ((faradayRM wavelength Bz ne depth).val p))
      = spec_psi wavelength Bx By Bz ne depth p
    rw [harr]
    show List.zipWith (fun a r => a + r) (psi0 Bx By p)
        (((cumtrapz (List.zipWith (fun b n => b * n) (Bz p) (ne p)) depth).map
            (fun r => k0 * r)).map (fun r => wavelength^2 * r))
      = List.zipWith (fun a r => a + wavelength^2 * r) (psi0 Bx By p)
        ((cumtrapz (List.zipWith (fun b n => b * n) (Bz p) (ne p)) depth).map
            (fun r => k0 * r))
    rw [List.map_map, List.zipWith_map_right, List.zipWith_map_right]
    apply zipWithExt
    intro a b
    simp [Function.comp]

/-- Claim C2: with no beam smoothing, `compute_stokes_parameters` returns
`I` as the trapezoidal integral of the emissivity along the depth axis, and
`Q` and `U` as `p0 = (γ+1)/(γ+7/3)` times the trapezoidal integrals of
`emissivity·cos(2·psi)` and `emissivity·sin(2·psi)` with
`psi = psi0 + λ²·RM_cumulative`, all using the same trapezoidal rule on the
actual (possibly non-uniform) depth spacing (outputs in source order
`(I, U, Q)`). -/
theorem c2_stokes_trapezoidal {P : Type}
    (gaussian_filter : ℝ → (P → ℝ) → (P → ℝ)) (wavelength gamma : ℝ)
    (Bx By Bz ne ncr : P → List ℝ) (depth : List ℝ)
    (hBx : ∀ p, (Bx p).length = depth.length)
    (hBy : ∀ p, (By p).length = depth.length)
    (hBz : ∀ p, (Bz p).length = depth.length)
    (hne : ∀ p, (ne p).length = depth.length) :
    (compute_stokes_parameters gaussian_filter (DepthInput.bare depth) wavelength
        Bx By Bz ne ncr gamma none).1.val
      = spec_I gamma wavelength Bx By ncr depth
    ∧ (compute_stokes_parameters gaussian_filter (DepthInput.bare depth) wavelength
        Bx By Bz ne ncr gamma none).2.2.val
      = spec_Q gamma wavelength Bx By Bz ne ncr depth
    ∧ (compute_stokes_parameters gaussian_filter (DepthInput.bare depth) wavelength
        Bx By Bz ne ncr gamma none).2.1.val
      = spec_U gamma wavelength Bx By Bz ne ncr depth := by
  have hps := psiField_eq_spec wavelength Bx By Bz ne depth hBx hBy hBz hne
  refine ⟨rfl, ?_, ?_⟩
  · show (fun p =>
        ((gamma+1)/(gamma+7/3)) *
          integrate (List.zipWith (fun e a => e * Real.cos (2*a))
            (emissivity gamma wavelength ncr (Bperp2 Bx By) p)
            (psiField wavelength Bx By Bz ne depth p)) depth)
      = spec_Q gamma wavelength Bx By Bz ne ncr depth
    rw [hps]
    rfl
  · show (fun p =>
        ((gamma+1)/(gamma+7/3)) *
          integrate (List.zipWith (fun e a => e * Real.sin (2*a))
            (emissivity gamma wavelength ncr (Bperp2 Bx By) p)
            (psiField wavelength Bx By Bz ne depth p)) depth)
      = spec_U gamma wavelength Bx By Bz ne ncr depth
    rw [hps]
    rfl

/-- Witness for `c2_stokes_trapezoidal` at a concrete one-pixel grid with two
depth samples and zero wavelength. -/
theorem c2_witness :
    (∀ p : Unit, ([(0:ℝ), 0]).length = ([(0:ℝ), 1]).length)
    ∧ ((compute_stokes_parameters (fun _ m => m) (DepthInput.bare [0, 1]) 0
          (fun _ : Unit => [0, 0]) (fun _ => [0, 0]) (fun _ => [0, 0])
          (fun _ => [0, 0]) (fun _ => [0, 0]) 3 none).1.val
        = spec_I 3 0 (fun _ : Unit => [0, 0]) (fun _ => [0, 0]) (fun _ => [0, 0]) [0, 1]
      ∧ (compute_stokes_parameters (fun _ m => m) (DepthInput.bare [0, 1]) 0
          (fun _ : Unit => [0, 0]) (fun _ => [0, 0]) (fun _ => [0, 0])
          (fun _ => [0, 0]) (fun _ => [0, 0]) 3 none).2.2.val
        = spec_Q 3 0 (fun _ : Unit => [0, 0]) (fun _ => [0, 0]) (fun _ => [0, 0])
            (fun _ => [0, 0]) (fun _ => [0, 0]) [0, 1]
      ∧ (compute_stokes_parameters (fun _ m => m) (DepthInput.bare [0, 1]) 0
          (fun _ : Unit => [0, 0]) (fun _ => [0, 0]) (fun _ => [0, 0])
          (fun _ => [0, 0]) (fun _ => [0, 0]) 3 none).2.1.val
        = spec_U 3 0 (fun _ : Unit => [0, 0]) (fun _ => [0, 0]) (fun _ => [0, 0])
            (fun _ => [0, 0]) (fun _ => [0, 0]) [0, 1]) :=
  ⟨fun _ => rfl,
   c2_stokes_trapezoidal (fun _ m => m) 0 3
     (fun _ : Unit => [0, 0]) (fun _ => [0, 0]) (fun _ => [0, 0])
     (fun _ => [0, 0]) (fun _ => [0, 0]) [0, 1]
     (fun _ => rfl) (fun _ => rfl) (fun _ => rfl) (fun _ => rfl)⟩

lemma psi0At_one_zero : psi0At 1 0 = Real.pi / 2 := by
  have hpi := Real.pi_pos
  have hm : psi0Masked 1 0 = psi0Raw 1 0 := by
    rw [psi0Masked, if_neg]
    rintro ⟨h0, h1⟩
    exact one_ne_zero h1
  have hr : psi0Raw 1 0 = Real.pi / 2 := by
    rw [psi0Raw]
    norm_num [Real.arctan_zero]
  rw [psi0At, hm, hr, wrapStep1,
    if_neg (show ¬(Real.pi/2 > Real.pi) by push_neg; linarith), wrapStep2,
    if_neg (show ¬(Real.pi/2 < -Real.pi) by push_neg; linarith)]

lemma c8_em_eval :
    emissivity 3 1 (fun _ : Unit => [1, 1])
        (Bperp2 (fun _ => [1, 1]) (fun _ => [0, 0])) () = [1, 1] := by
  have hb : bperp2Elem 1 0 = 1 := by
    rw [bperp2Elem]
    norm_num
  have he : emissivityElem 3 1 1 1 = 1 := by
    show (1:ℝ) * (1:ℝ) ^ (((3:ℝ)+1)/4) * (1:ℝ) ^ (((3:ℝ)-1)/2) = 1
    rw [Real.one_rpow, Real.one_rpow]
    norm_num
  show List.zipWith (emissivityElem 3 1) [(1:ℝ), 1]
      (List.zipWith bperp2Elem [(1:ℝ), 1] [(0:ℝ), 0]) = [1, 1]
  rw [show List.zipWith bperp2Elem [(1:ℝ), 1] [(0:ℝ), 0]
        = [bperp2Elem 1 0, bperp2Elem 1 0] from rfl]
  rw [hb]
  rw [show List.zipWith (emissivityElem 3 1) [(1:ℝ), 1] [(1:ℝ), 1]
        = [emissivityElem 3 1 1 1, emissivityElem 3 1 1 1] from rfl]
  rw [he]

lemma c8_ps_eval :
    psiField 1 (fun _ : Unit => [1, 1]) (fun _ => [0, 0]) (fun _ => [0, 0])
        (fun _ => [0, 0]) [0, 1] () = [Real.pi/2, Real.pi/2] := by
  have harr : (faradayRM (1:ℝ) (fun _ : Unit => [(0:ℝ), 0]) (fun _ => [0, 0]) [0, 1]).val ()
      = NDVal.arr (cumFD (fun _ : Unit => [(0:ℝ), 0]) (fun _ => [0, 0]) [0, 1] ()) := by
    rw [faradayRM, if_pos (one_ne_zero)]
  have hps0 : psi0 (fun _ : Unit => [(1:ℝ), 1]) (fun _ => [(0:ℝ), 0]) ()
      = [Real.pi/2, Real.pi/2] := by
    show List.zipWith psi0At [(1:ℝ), 1] [(0:ℝ), 0] = [Real.pi/2, Real.pi/2]
    rw [show List.zipWith psi0At [(1:ℝ), 1] [(0:ℝ), 0]
          = [psi0At 1 0, psi0At 1 0] from rfl]
    rw [psi0At_one_zero]
  have hcum : cumFD (fun _ : Unit => [(0:ℝ), 0]) (fun _ => [0, 0]) [0, 1] () = [0, 0] := by
    show (cumtrapz (List.zipWith (fun b n => b * n) [(0:ℝ), 0] [(0:ℝ), 0]) [0, 1]).map
        (fun r => k0 * r) = [0, 0]
    rw [show List.zipWith (fun (b n : ℝ) => b * n) [(0:ℝ), 0] [(0:ℝ), 0]
          = [(0:ℝ)*0, 0*0] from rfl]
    rw [cumtrapz, cumtrapzFrom_step, cumtrapzFrom_single]
    simp [k0]
  show addND (psi0 (fun _ : Unit => [1, 1]) (fun _ => [0, 0]) ())
      (scaleND ((1:ℝ)^2)
        ((faradayRM 1 (fun _ : Unit => [(0:ℝ), 0]) (fun _ => [0, 0]) [0, 1]).val ()))
    = [Real.pi/2, Real.pi/2]
  rw [harr, hps0, hcum]
  show List.zipWith (fun a r => a + r) [Real.pi/2, Real.pi/2]
      ([(0:ℝ), 0].map (fun r => (1:ℝ)^2 * r)) = [Real.pi/2, Real.pi/2]
  norm_num

lemma c8_U_eval :
    (compute_stokes_parameters (fun _ m => m) (DepthInput.bare [0, 1]) 1
        (fun _ : Unit => [1, 1]) (fun _ => [0, 0]) (fun _ => [0, 0])
        (fun _ => [0, 0]) (fun _ => [1, 1]) 3 none).2.1.val () = 0 := by
  show ((3:ℝ)+1)/((3:ℝ)+7/3) *
      integrate (List.zipWith (fun e a => e * Real.sin (2*a))
        (emissivity 3 1 (fun _ : Unit => [1, 1])
          (Bperp2 (fun _ => [1, 1]) (fun _ => [0, 0])) ())
        (psiField 1 (fun _ : Unit => [1, 1]) (fun _ => [0, 0]) (fun _ => [0, 0])
          (fun _ => [0, 0]) [0, 1] ())) [0, 1] = 0
  rw [c8_em_eval, c8_ps_eval]
  have hsin : Real.sin (2*(Real.pi/2)) = 0 := by
    rw [show 2*(Real.pi/2) = Real.pi by ring, Real.sin_pi]
  rw [show List.zipWith (fun (e a : ℝ) => e * Real.sin (2*a)) [(1:ℝ), 1]
        [Real.pi/2, Real.pi/2]
        = [1 * Real.sin (2*(Real.pi/2)), 1 * Real.sin (2*(Real.pi/2))] from rfl]
  rw [hsin]
  show ((3:ℝ)+1)/((3:ℝ)+7/3) * trapz [1 * 0, 1 * 0] [0, 1] = 0
  rw [trapz_step, trapz_single]
  norm_num

lemma c8_Q_eval :
    (compute_stokes_parameters (fun _ m => m) (DepthInput.bare [0, 1]) 1
        (fun _ : Unit => [1, 1]) (fun _ => [0, 0]) (fun _ => [0, 0])
        (fun _ => [0, 0]) (fun _ => [1, 1]) 3 none).2.2.val () = -(3/4 : ℝ) := by
  show ((3:ℝ)+1)/((3:ℝ)+7/3) *
      integrate (List.zipWith (fun e a => e * Real.cos (2*a))
        (emissivity 3 1 (fun _ : Unit => [1, 1])
          (Bperp2 (fun _ => [1, 1]) (fun _ => [0, 0])) ())
        (psiField 1 (fun _ : Unit => [1, 1]) (fun _ => [0, 0]) (fun _ => [0, 0])
          (fun _ => [0, 0]) [0, 1] ())) [0, 1] = -(3/4 : ℝ)
  rw [c8_em_eval, c8_ps_eval]
  have hcos : Real.cos (2*(Real.pi/2)) = -1 := by
    rw [show 2*(Real.pi/2) = Real.pi by ring, Real.cos_pi]
  rw [show List.zipWith (fun (e a : ℝ) => e * Real.cos (2*a)) [(1:ℝ), 1]
        [Real.pi/2, Real.pi/2]
        = [1 * Real.cos (2*(Real.pi/2)), 1 * Real.cos (2*(Real.pi/2))] from rfl]
  rw [hcos]
  show ((3:ℝ)+1)/((3:ℝ)+7/3) * trapz [1 * -1, 1 * -1] [0, 1] = -(3/4 : ℝ)
  rw [trapz_step, trapz_single]
  norm_num

/-- Claim C8: `compute_stokes_parameters` returns its three maps in the order
`(I, U, Q)` (source line 96) — the second component is the Stokes `U`
(sine) integral and the third the Stokes `Q` (cosine) integral — not in the
documented order `(I, Q, U)`; at a concrete input the two differ, so the
order matters. -/
theorem c8_output_order {P : Type}
    (gaussian_filter : ℝ → (P → ℝ) → (P → ℝ)) (wavelength gamma : ℝ)
    (Bx By Bz ne ncr : P → List ℝ) (depth : List ℝ)
    (hBx : ∀ p, (Bx p).length = depth.length)
    (hBy : ∀ p, (By p).length = depth.length)
    (hBz : ∀ p, (Bz p).length = depth.length)
    (hne : ∀ p, (ne p).length = depth.length) :
    (compute_stokes_parameters gaussian_filter (DepthInput.bare depth) wavelength
        Bx By Bz ne ncr gamma none).2.1.val
      = spec_U gamma wavelength Bx By Bz ne ncr depth
    ∧ (compute_stokes_parameters gaussian_filter (DepthInput.bare depth) wavelength
        Bx By Bz ne ncr gamma none).2.2.val
      = spec_Q gamma wavelength Bx By Bz ne ncr depth
    ∧ (compute_stokes_parameters (fun _ m => m) (DepthInput.bare [0, 1]) 1
        (fun _ : Unit => [1, 1]) (fun _ => [0, 0]) (fun _ => [0, 0])
        (fun _ => [0, 0]) (fun _ => [1, 1]) 3 none).2.1.val ()
      ≠ (compute_stokes_parameters (fun _ m => m) (DepthInput.bare [0, 1]) 1
        (fun _ : Unit => [1, 1]) (fun _ => [0, 0]) (fun _ => [0, 0])
        (fun _ => [0, 0]) (fun _ => [1, 1]) 3 none).2.2.val () := by
  have hps := psiField_eq_spec wavelength Bx By Bz ne depth hBx hBy hBz hne
  refine ⟨?_, ?_, ?_⟩
  · show (fun p =>
        ((gamma+1)/(gamma+7/3)) *
          integrate (List.zipWith (fun e a => e * Real.sin (2*a))
            (emissivity gamma wavelength ncr (Bperp2 Bx By) p)
            (psiField wavelength Bx By Bz ne depth p)) depth)
      = spec_U gamma wavelength Bx By Bz ne ncr depth
    rw [hps]
    rfl
  · show (fun p =>
        ((gamma+1)/(gamma+7/3)) *
          integrate (List.zipWith (fun e a => e * Real.cos (2*a))
            (emissivity gamma wavelength ncr (Bperp2 Bx By) p)
            (psiField wavelength Bx By Bz ne depth p)) depth)
      = spec_Q gamma wavelength Bx By Bz ne ncr depth
    rw [hps]
    rfl
  · rw [c8_U_eval, c8_Q_eval]
    norm_num

/-- Witness for `c8_output_order` at a concrete one-pixel grid with two depth
samples. -/
theorem c8_witness :
    (∀ p : Unit, ([(1:ℝ), 1]).length = ([(0:ℝ), 1]).length)
    ∧ ((compute_stokes_parameters (fun _ m => m) (DepthInput.bare [0, 1]) 1
          (fun _ : Unit => [1, 1]) (fun _ => [0, 0]) (fun _ => [0, 0])
          (fun _ => [0, 0]) (fun _ => [1, 1]) 3 none).2.1.val
        = spec_U 3 1 (fun _ : Unit => [1, 1]) (fun _ => [0, 0]) (fun _ => [0, 0])
            (fun _ => [0, 0]) (fun _ => [1, 1]) [0, 1]
      ∧ (compute_stokes_parameters (fun _ m => m) (DepthInput.bare [0, 1]) 1
          (fun _ : Unit => [1, 1]) (fun _ => [0, 0]) (fun _ => [0, 0])
          (fun _ => [0, 0]) (fun _ => [1, 1]) 3 none).2.2.val
        = spec_Q 3 1 (fun _ : Unit => [1, 1]) (fun _ => [0, 0]) (fun _ => [0, 0])
            (fun _ => [0, 0]) (fun _ => [1, 1]) [0, 1]
      ∧ (compute_stokes_parameters (fun _ m => m) (DepthInput.bare [0, 1]) 1
          (fun _ : Unit => [1, 1]) (fun _ => [0, 0]) (fun _ => [0, 0])
          (fun _ => [0, 0]) (fun _ => [1, 1]) 3 none).2.1.val ()
        ≠ (compute_stokes_parameters (fun _ m => m) (DepthInput.bare [0, 1]) 1
          (fun _ : Unit => [1, 1]) (fun _ => [0, 0]) (fun _ => [0, 0])
          (fun _ => [0, 0]) (fun _ => [1, 1]) 3 none).2.2.val ()) :=
  ⟨fun _ => rfl,
   c8_output_order (fun _ m => m) 1 3
     (fun _ : Unit => [1, 1]) (fun _ => [0, 0]) (fun _ => [0, 0])
     (fun _ => [0, 0]) (fun _ => [1, 1]) [0, 1]
     (fun _ => rfl) (fun _ => rfl) (fun _ => rfl) (fun _ => rfl)⟩

end Supernova
